import Mathlib

/-!
Shallow embedding of the redis backend of python-stdnet
(src/stdnet/backends/redisb.py and src/stdnet/apps/columnts/models.py),
with theorems settling the specification claims about the query compiler,
the commit/delete session protocol, the structure write-behind caches and
the timeseries merge entry point.

Machine conventions: python strings are Lean String, python numbers in the
slice/score logic are Lean Int, python None is Option.none, a python list
is a Lean List.  Store commands queued on a pipeline are recorded as
values of explicit command inductives, in queueing order.
-/

namespace Stdnet

/-! ### Query evaluation: RedisQuery.get_redis_slice and RedisQuery._items -/

/-- Python slice object: slice(start, stop), each side possibly None. -/
structure Slice where
  start : Option Int
  stop : Option Int
deriving DecidableEq

/-- Embeds RedisQuery.get_redis_slice: start = slic.start or 0, stop = slic.stop;
without a slice, (0, None).  (Python "or 0" and Option.getD 0 agree: the only
falsy Int is 0 itself.) -/
def get_redis_slice (slic : Option Slice) : Int × Option Int :=
  match slic with
  | some s => (s.start.getD 0, s.stop)
  | none => (0, none)

/-- Result of RedisQuery.order applied to an ordering descriptor: the dict
with field, method, desc and the flattened nested walk.  The walk itself is
external to the claims; its output shape is kept. -/
structure OrderSpec where
  field : String
  method : String
  desc : Bool
  nested : List String
deriving DecidableEq

/-- Model metadata consumed by RedisQuery._items. -/
structure ItemsMeta where
  /-- meta.pk.name, also meta.pkname(). -/
  pk : String
  /-- meta.ordering: none when the model has no default ordering, otherwise
  the desc flag of the ordering descriptor. -/
  metaOrderingDesc : Option Bool
  /-- Value of self.order(meta.get_sorting(meta.pkname())), the primary-key
  ordering descriptor used as fallback for sliced unordered queries. -/
  pkSort : OrderSpec
  /-- meta.backend_fields: maps requested field names to (fields, attribute
  names).  External to the claims; kept as a model parameter. -/
  backendFields : List String → List String × List String

/-- Queryelem attributes consumed by RedisQuery._items. -/
structure ItemsQuery where
  /-- Value of self.order(self.queryelem.ordering) when the query element
  carries an explicit ordering, none otherwise. -/
  elemOrdering : Option OrderSpec
  /-- queryelem.get_field single-field projection. -/
  getField : Option String
  /-- queryelem.fields. -/
  fields : List String
  /-- queryelem.select_related names. -/
  selectRelated : List String

/-- Helper unique_tuple from stdnet.utils (module not under src): ordered
first-occurrence union of the chained iterables, as its call sites use it. -/
def unique_tuple (xs ys : List String) : List String :=
  (xs ++ ys).foldl (fun acc x => if x ∈ acc then acc else acc ++ [x]) []

/-- Options record sent to the odmrun load script by RedisQuery._items. -/
structure LoadOptions where
  ordering : String
  order : Option OrderSpec
  start : Int
  stop : Int
  fieldsAttributes : List String
  get : Option String
deriving DecidableEq

/-- Successful outcome of RedisQuery._items: the load call issued to the
odmrun script, plus whether the cardinality sub-pipeline was executed first
(N = self.execute_query()) to resolve the slice. -/
structure ItemsCall where
  options : LoadOptions
  /-- python-side fields forwarded to the callback. -/
  fields : Option (List String)
  /-- True when the order branch ran N = self.execute_query() before
  converting the slice. -/
  usedCard : Bool

/-- Embeds RedisQuery._items.  The argument N models the cardinality value
returned by self.execute_query() when the order branch consults it.  An
error result models the QuerySetError raise, which fires before the odmrun
load command is queued. -/
def items (m : ItemsMeta) (q : ItemsQuery) (N : Int) (slic : Option Slice) :
    Except String ItemsCall :=
  let sp := get_redis_slice slic
  let start0 := sp.1
  let stop0 := sp.2
  -- ordering resolution: explicit query ordering, else model ordering,
  -- else primary-key ordering when a slice is present
  let nameOrder : String × Option OrderSpec :=
    match q.elemOrdering with
    | some o => ("", some o)
    | none =>
      match m.metaOrderingDesc with
      | some d => ((if d then "DESC" else "ASC"), none)
      | none =>
        if start0 ≠ 0 ∨ stop0.isSome then ("", some m.pkSort) else ("", none)
  -- when using the sort algorithm redis requires a length, not a stop index
  let conv : String × Int × Int × Bool :=
    match nameOrder.2 with
    | some _ =>
      let stop1 : Int :=
        match stop0 with
        | none => N
        | some v => if v < 0 then v + N else v
      let start1 : Int := if start0 < 0 then start0 + N else start0
      ("explicit", start1, stop1 - start1, true)
    | none =>
      (nameOrder.1, start0, (match stop0 with | none => -1 | some v => v), false)
  let gf := q.getField
  match gf with
  | some g =>
    if slic.isSome then
      Except.error
        "Cannot slice a queryset in conjunction with get_field. Use load_only instead."
    else if g = m.pk then
      Except.ok
        ⟨⟨conv.1, nameOrder.2, conv.2.1, conv.2.2.1, [m.pk], gf⟩, some [m.pk],
          conv.2.2.2⟩
    else
      let fa := m.backendFields [g]
      Except.ok
        ⟨⟨conv.1, nameOrder.2, conv.2.1, conv.2.2.1, fa.2, gf⟩, some fa.1,
          conv.2.2.2⟩
  | none =>
    let fields0 := q.fields
    if fields0.isEmpty then
      Except.ok
        ⟨⟨conv.1, nameOrder.2, conv.2.1, conv.2.2.1, [], gf⟩, none, conv.2.2.2⟩
    else
      let fields1 := unique_tuple fields0 q.selectRelated
      if fields1 = [m.pk] then
        Except.ok
          ⟨⟨conv.1, nameOrder.2, conv.2.1, conv.2.2.1, fields1, gf⟩,
            some fields1, conv.2.2.2⟩
      else
        let fa := m.backendFields fields1
        Except.ok
          ⟨⟨conv.1, nameOrder.2, conv.2.1, conv.2.2.1, fa.2, gf⟩, some fa.1,
            conv.2.2.2⟩

/-! ### Commit response parsing: odmrun._wrap_commit -/

/-- One element of the odmrun commit script response: the (id, flag, info)
triple per submitted instance.  The info slot carries the score rendering on
success and the store error message on failure; both arrive as raw strings
and are kept raw (float decoding and byte decoding are transport codecs). -/
structure ResponseItem where
  id : String
  flag : Int
  info : String
deriving DecidableEq

/-- Namedtuple instance_session_result(iid, persistent, id, deleted, score)
from stdnet.backends, as the redisb call sites populate it. -/
structure instance_session_result where
  iid : String
  persistent : Bool
  id : String
  deleted : Bool
  score : String
deriving DecidableEq

/-- One yielded element of odmrun._wrap_commit: a session result or a
CommitException carrying the store message. -/
inductive CommitOut where
  | result (r : instance_session_result)
  | exc (msg : String)
deriving DecidableEq

/-- Embeds odmrun._wrap_commit: zip the response with the submitted iids;
a truthy flag yields instance_session_result(iid, True, id, False,
float(info)); a falsy flag yields CommitException(info decoded). -/
def wrap_commit (response : List ResponseItem) (iids : List String) :
    List CommitOut :=
  (response.zip iids).map fun p =>
    if p.1.flag ≠ 0 then CommitOut.result ⟨p.2, true, p.1.id, false, p.1.info⟩
    else CommitOut.exc p.1.info

/-! ### Structure flushes: String/Set/Zset/List/Hash/TS in redisb.py -/

/-- Store commands issued by the structure flush methods. -/
inductive SCmd where
  | sadd (key : String) (members : List String)
  | srem (key : String) (members : List String)
  | zadd (key : String) (scoredMembers : List (Int × String))
  | zrem (key : String) (members : List String)
  | hmset (key : String) (mapping : List (String × String))
  | hdel (key : String) (fields : List String)
  | lpush (key : String) (values : List String)
  | rpush (key : String) (values : List String)
  | append (key : String) (data : String)
  | tsAdd (key : String) (pairs : List (String × String))
deriving DecidableEq

/-- Additive commands: they insert or overwrite members/fields/values. -/
def SCmd.isAdditive : SCmd → Bool
  | .sadd _ _ => true
  | .zadd _ _ => true
  | .hmset _ _ => true
  | .lpush _ _ => true
  | .rpush _ _ => true
  | .append _ _ => true
  | .tsAdd _ _ => true
  | _ => false

/-- Removal commands: they delete members/fields. -/
def SCmd.isRemoval : SCmd → Bool
  | .srem _ _ => true
  | .zrem _ _ => true
  | .hdel _ _ => true
  | _ => false

/-- Cache of the Set structure: pending member additions and removals. -/
structure SetCache where
  toadd : List String
  toremove : List String
deriving DecidableEq

/-- Embeds Set.flush: sadd for pending additions, srem for pending
removals, result None when nothing was pending.  The cache is not cleared
here; clearing belongs to the caller. -/
def setFlush (id : String) (c : SetCache) : List SCmd × Option Bool :=
  let r1 : List SCmd × Option Bool :=
    if ¬ c.toadd.isEmpty then ([SCmd.sadd id c.toadd], some true) else ([], none)
  if ¬ c.toremove.isEmpty then (r1.1 ++ [SCmd.srem id c.toremove], some true)
  else r1

/-- Cache of the Zset structure: toadd holds (score, member) pairs (its
flat() feeds zadd), toremove holds (score, member) pairs of which only the
member (el[1]) feeds zrem. -/
structure ZsetCache where
  toadd : List (Int × String)
  toremove : List (Int × String)
deriving DecidableEq

/-- Embeds Zset.flush. -/
def zsetFlush (id : String) (c : ZsetCache) : List SCmd × Option Bool :=
  let r1 : List SCmd × Option Bool :=
    if ¬ c.toadd.isEmpty then ([SCmd.zadd id c.toadd], some true) else ([], none)
  if ¬ c.toremove.isEmpty then
    (r1.1 ++ [SCmd.zrem id (c.toremove.map Prod.snd)], some true)
  else r1

/-- Cache of the Hash structure: field updates and field deletions. -/
structure HashCache where
  toadd : List (String × String)
  toremove : List String
deriving DecidableEq

/-- Embeds Hash.flush. -/
def hashFlush (id : String) (c : HashCache) : List SCmd × Option Bool :=
  let r1 : List SCmd × Option Bool :=
    if ¬ c.toadd.isEmpty then ([SCmd.hmset id c.toadd], some true) else ([], none)
  if ¬ c.toremove.isEmpty then (r1.1 ++ [SCmd.hdel id c.toremove], some true)
  else r1

/-- Cache of the List structure: front and back push buffers. -/
structure ListCache where
  front : List String
  back : List String
deriving DecidableEq

/-- Embeds List.flush: lpush for the front buffer, rpush for the back
buffer; both are additive pushes, there is no removal buffer. -/
def listFlush (id : String) (c : ListCache) : List SCmd × Option Bool :=
  let r1 : List SCmd × Option Bool :=
    if ¬ c.front.isEmpty then ([SCmd.lpush id c.front], some true) else ([], none)
  if ¬ c.back.isEmpty then (r1.1 ++ [SCmd.rpush id c.back], some true)
  else r1

/-- Embeds String.flush: data = cache.getvalue(); one append when data is
non-empty, otherwise nothing. -/
def stringFlush (id : String) (data : String) : List SCmd × Option Bool :=
  if data ≠ "" then ([SCmd.append id data], some true) else ([], none)

/-- Cache of the TS structure: toadd holds the (timestamp, value) pairs
whose flat() feeds the ts_commands add script; toremove holds pending
timestamp removals. -/
structure TSCache where
  toadd : List (String × String)
  toremove : List String
deriving DecidableEq

/-- Embeds TS.flush: the additive branch queues one ts_commands add script
call when toadd is pending; a pending toremove then raises
NotImplementedError - after the additive call was already queued on the
client.  The first component records the commands queued before the
outcome, the second the returned value or the raised error. -/
def tsFlush (id : String) (c : TSCache) : List SCmd × Except String (Option Bool) :=
  let cmds := if ¬ c.toadd.isEmpty then [SCmd.tsAdd id c.toadd] else []
  let res : Option Bool := if ¬ c.toadd.isEmpty then some true else none
  if ¬ c.toremove.isEmpty then
    (cmds, Except.error "NotImplementedError: Cannot remove. TSDEL not implemented")
  else (cmds, Except.ok res)

/-! ### ColumnTS.merge session and arity checks -/

/-- Operand series of ColumnTS.merge: only its bound session matters to the
checks; the session is an opaque identifier when present. -/
structure SeriesOperand where
  session : Option Nat
deriving DecidableEq

/-- One weighted group passed to merge: the serie tuple (weight, ts1, ...,
tsN); members models serie[1:], so the python length is members.length + 1. -/
structure WeightedGroup where
  weight : Int
  members : List SeriesOperand
deriving DecidableEq

/-- Errors raised by ColumnTS.merge before touching the backend. -/
inductive MergeError where
  | valueError (msg : String)
  | sessionNotAvailable (msg : String)
deriving DecidableEq

/-- Session-scan loop of ColumnTS.merge: starting from self.session, visit
each serie; a serie of python length below 2 (no members) raises ValueError
at that point; each operand of serie[1:] supplies its session when none has
been found yet. -/
def mergeSessions (sess : Option Nat) (series : List WeightedGroup) :
    Except MergeError (Option Nat) :=
  match series with
  | [] => Except.ok sess
  | g :: gs =>
    if g.members.length + 1 < 2 then
      Except.error (MergeError.valueError "merge requires tuples of length 2 or more")
    else
      mergeSessions
        (g.members.foldl (fun s o => if s.isNone then o.session else s) sess) gs

/-- Successful outcome of ColumnTS.merge: the backend merge call with the
resolved session.  Reaching it means no check raised. -/
structure MergeCall where
  session : Nat
  series : List WeightedGroup
  fields : List String
deriving DecidableEq

/-- Embeds ColumnTS.merge: run the per-group checks and the session scan; a
still-absent session then raises SessionNotAvailable; only afterwards is
backend_structure().merge(series, fields) invoked and self added to the
session. -/
def merge (selfSession : Option Nat) (series : List WeightedGroup)
    (fields : List String) : Except MergeError MergeCall :=
  match mergeSessions selfSession series with
  | Except.error e => Except.error e
  | Except.ok none =>
    Except.error (MergeError.sessionNotAvailable "No session available")
  | Except.ok (some s) => Except.ok ⟨s, series, fields⟩

/-! ### Session commit serialization: BackendDataServer.execute_session -/

/-- Sentinel score used when no ordering applies (module constant
MIN_FLOAT = -1.e99, an exact float equal to -10^99). -/
def MIN_FLOAT : Int := -(10 ^ 99)

/-- Model ordering descriptor meta.ordering as execute_session consumes it:
the auto flag and the scoring function of the ordering field. -/
structure MOrdering where
  auto : Bool
  scorefun : Int → Int

/-- Values appended to the lua argument buffer: strings, numbers, and the
auto-increment counter reference meta.ordering.name.incrby. -/
inductive LuaVal where
  | s (v : String)
  | n (v : Int)
  | counter
deriving DecidableEq

/-- Helper flat_mapping from stdnet.utils (module not under src): flattens
a mapping into alternating key/value entries, as its call site consumes it. -/
def flat_mapping (d : List (String × String)) : List String :=
  d.foldr (fun p acc => p.1 :: p.2 :: acc) []

/-- Dirty instance as execute_session reads it. -/
structure DirtyInstance where
  /-- state.iid, the session-local identity. -/
  iid : String
  /-- state.persistent. -/
  persistent : Bool
  /-- instance.pkvalue(), when assigned. -/
  pkvalue : Option String
  /-- state.action. -/
  action : String
  /-- getattr(instance, meta.ordering.name, None), already decoded. -/
  orderingValue : Option Int
  /-- instance.dbdata cleaned_data mapping. -/
  cleanedData : List (String × String)
  /-- instance.is_valid(). -/
  valid : Bool

/-- Embeds the per-instance serialization loop body of
BackendDataServer.execute_session: an invalid instance raises
FieldValueError; otherwise the record (action, id, score, len(data),
...data) is appended to the lua argument buffer, with the score defaulting
to MIN_FLOAT, taken from the auto-increment counter when the ordering is
auto, and from the ordering field scorefun otherwise (unless the value is
None, which keeps the sentinel). -/
def instanceLua (ordering : Option MOrdering) (inst : DirtyInstance) :
    Except String (List LuaVal) :=
  if ¬ inst.valid then Except.error "FieldValueError"
  else
    let score : LuaVal :=
      match ordering with
      | none => LuaVal.n MIN_FLOAT
      | some o =>
        if o.auto then LuaVal.counter
        else
          match inst.orderingValue with
          | none => LuaVal.n MIN_FLOAT
          | some v => LuaVal.n (o.scorefun v)
    let id := if inst.persistent then inst.iid else inst.pkvalue.getD ""
    let data := flat_mapping inst.cleanedData
    Except.ok
      ([LuaVal.s inst.action, LuaVal.s id, score, LuaVal.n data.length] ++
        data.map LuaVal.s)

/-! ### Delete cascade: BackendDataServer.accumulate_delete -/

mutual
/-- Model with its related managers, as accumulate_delete walks them. -/
inductive DModel where
  | mk (name : String) (rels : List DRel)
/-- Related manager reached from meta.related: the foreign-key attribute
name, the required flag of the field, whether rmanager.model equals the
current model (the self-referential case, which never recurses and whose
relmodel slot is unused), and the related model for the other-model case. -/
inductive DRel where
  | mk (attname : String) (required : Bool) (selfRef : Bool) (relmodel : DModel)
end

/-- Model name accessor. -/
def DModel.name : DModel → String
  | .mk n _ => n

/-- Relations accessor. -/
def DModel.rels : DModel → List DRel
  | .mk _ rs => rs

/-- Attribute name accessor. -/
def DRel.attname : DRel → String
  | .mk a _ _ _ => a

/-- Required flag accessor. -/
def DRel.required : DRel → Bool
  | .mk _ r _ _ => r

/-- Self-reference flag accessor. -/
def DRel.selfRef : DRel → Bool
  | .mk _ _ s _ => s

/-- Related model accessor. -/
def DRel.relmodel : DRel → DModel
  | .mk _ _ _ m => m

/-- Pipeline commands queued by accumulate_delete, keyed by model name. -/
inductive DCmd where
  | aggregate (model : String) (attname : String)
  | delete (model : String)
deriving DecidableEq

/-- First loop of accumulate_delete over meta.related: a self-referential
manager queues an odmrun aggregate command at once; the others are only
collected into rel_managers.  The aggregate commands appear in relation
order. -/
def aggPass (modelName : String) (rels : List DRel) : List DCmd :=
  rels.filterMap fun r =>
    if r.selfRef then some (DCmd.aggregate modelName r.attname) else none

mutual
/-- Embeds BackendDataServer.accumulate_delete for a delete query over one
model: the self-referential aggregates of the first loop, then the second
loop recursing into every collected related manager whose field is
required, and finally the odmrun delete command of the model itself. -/
def accumulate_delete : DModel → List DCmd
  | .mk n rels => aggPass n rels ++ relPass rels ++ [DCmd.delete n]
/-- Second loop of accumulate_delete over the collected rel_managers (the
non-self-referential relations, in their original order): delete only if
the field is required. -/
def relPass : List DRel → List DCmd
  | [] => []
  | DRel.mk _ req selfr child :: rest =>
    (if ¬ selfr ∧ req then accumulate_delete child else []) ++ relPass rest
end

/-! ### Query compilation: RedisQuery._build -/

/-- Model metadata consumed by RedisQuery._build. -/
structure BMeta where
  /-- meta.pkname(). -/
  pkname : String
  /-- meta.ordering truthiness (selects z vs s commands). -/
  ordering : Bool
  /-- backend.basekey(meta) with no extra parts, the model key root.
  Modelled from the spec: the key namespace convention
  namespace:model:obj:id and namespace:model:tmp:uid (basekey itself lives
  in stdnet.backends, outside src). -/
  base : String
  /-- meta.dfields lookup of the attname of a field. -/
  attname : String → String

/-- Key built from the model root and extra parts joined with colons. -/
def basekey (m : BMeta) (parts : List String) : String :=
  m.base ++ String.join (parts.map fun p => ":" ++ p)

/-- Name produced by backend.tempkey(meta): a tmp key under the model root
with a fresh unique id, modelled by a counter. -/
def tempkeyName (m : BMeta) (n : Nat) : String :=
  basekey m ["tmp", toString n]

/-- JSON metadata blob self.meta_info sent to the scripts; opaque to the
claims, derived from the model. -/
def metaInfo (m : BMeta) : String := "meta:" ++ m.base

/-- Pipeline commands queued by RedisQuery._build. -/
inductive Cmd where
  /-- odmrun query script execution: execute_script(odmrun, keys, query,
  meta_info, name, *args). -/
  | queryRun (keys : List String) (name : String) (args : List String)
  /-- execute_script(move2set, keys, p). -/
  | move2set (keys : List String) (p : String)
  /-- zinterstore/sinterstore and friends: op dest keys. -/
  | store (op : String) (dest : String) (keys : List String)
  /-- backend.where_run over the keys with the where clause. -/
  | whereRun (keys : List String) (clause : String)
  /-- pipe.sort(key, by=nosort, get=okey, store=dest). -/
  | sortStore (key : String) (get : String) (dest : String)
  /-- pipe.expire(key, expire). -/
  | expire (key : String)
deriving DecidableEq

/-- Compilation state threaded through _build: the fresh temp-key counter,
the commands queued on the pipeline, and the temporary keys created so far
(in creation order). -/
structure BState where
  counter : Nat
  cmds : List Cmd
  created : List String
deriving DecidableEq

/-- Creation of a fresh temporary key (backend.tempkey). -/
def newTemp (m : BMeta) (s : BState) : String × BState :=
  (tempkeyName m s.counter,
    ⟨s.counter + 1, s.cmds, s.created ++ [tempkeyName m s.counter]⟩)

/-- Queue one command on the pipeline. -/
def emit (c : Cmd) (s : BState) : BState :=
  ⟨s.counter, s.cmds ++ [c], s.created⟩

/-- Child of a query element: a sub-query of the same backend (compiled
recursively, contributing its key to keys and a (set, key) pair to args) or
a (lookup, value) pair contributing to args.  Nested tuple values arrive
already serialized by dump_nested; a python None value arrives as the empty
string. -/
inductive QChild (α : Type) where
  | sub (q : α)
  | pair (lookup : String) (value : String)
deriving DecidableEq

/-- Query element as _build consumes it: keyword, name, children, the
optional where clause from queryelem.data, and the single-field projection
queryelem.get_field. -/
inductive QueryElem where
  | mk (keyword : String) (name : String) (children : List (QChild QueryElem))
      (whereClause : Option String) (getField : Option String)

/-- Keyword dispatch of RedisQuery._build (the block starting at
temp_key = True): the primary-key set reuse, the filtered-set query script,
and the move2set plus interstore/unionstore/diffstore set algebra.  Returns
the key so far, the temp_key flag, the (possibly extended) keys list and
the state; an error models the ValueError raised on an unknown keyword. -/
def keywordStage (m : BMeta) (kw name : String) (keys args : List String)
    (s : BState) : Except String (String × Bool × List String × BState) :=
  if kw = "set" then
    if name = m.pkname ∧ args = [] then
      Except.ok (basekey m ["id"], false, keys, s)
    else
      let t := newTemp m s
      let keys1 := t.1 :: keys
      Except.ok (t.1, true, keys1,
        emit (Cmd.queryRun keys1 name (metaInfo m :: args)) t.2)
  else
    let t := newTemp m s
    let p := if m.ordering then "z" else "s"
    let s1 := emit (Cmd.move2set keys p) t.2
    if kw = "intersect" then
      Except.ok (t.1, true, keys, emit (Cmd.store (p ++ "interstore") t.1 keys) s1)
    else if kw = "union" then
      Except.ok (t.1, true, keys, emit (Cmd.store (p ++ "unionstore") t.1 keys) s1)
    else if kw = "diff" then
      Except.ok (t.1, true, keys, emit (Cmd.store (p ++ "diffstore") t.1 keys) s1)
    else Except.error ("Could not perform " ++ kw ++ " operation")

/-- Where-clause pass of _build: the accumulated key is inserted in front
of the keys, a temporary key is allocated when none exists yet and is also
inserted in front, then where_run is queued on those keys. -/
def whereStage (m : BMeta) (wc : Option String) (key : String) (tempk : Bool)
    (keys : List String) (s : BState) : String × Bool × BState :=
  match wc with
  | none => (key, tempk, s)
  | some w =>
    if tempk then
      (key, tempk, emit (Cmd.whereRun (key :: key :: keys) w) s)
    else
      let t := newTemp m s
      (t.1, true, emit (Cmd.whereRun (t.1 :: key :: keys) w) t.2)

/-- Projection pass of _build: a get_field other than the primary key
queues a sort with by nosort reading the object hashes into the store key,
allocating a temporary store key when none exists yet. -/
def getFieldStage (m : BMeta) (gf : Option String) (key : String)
    (tempk : Bool) (s : BState) : String × Bool × BState :=
  match gf with
  | some g =>
    if g ≠ m.pkname then
      if tempk then
        (key, tempk,
          emit (Cmd.sortStore key (basekey m ["obj", "*->" ++ m.attname g]) key) s)
      else
        let t := newTemp m s
        (t.1, true,
          emit (Cmd.sortStore key (basekey m ["obj", "*->" ++ m.attname g]) t.1) t.2)
    else (key, tempk, s)
  | none => (key, tempk, s)

/-- Final expiry of _build: when a temporary key holds the result, queue
pipe.expire on it. -/
def expireStage (key : String) (tempk : Bool) (s : BState) : String × BState :=
  if tempk then (key, emit (Cmd.expire key) s) else (key, s)

/-- Remainder of RedisQuery._build once the children are folded into keys
and args: the keyword dispatch, the where pass, the get_field unwinding and
the final expiry, in source order. -/
def buildElemCore (m : BMeta) (kw name : String) (wc gf : Option String)
    (keys args : List String) (s : BState) : Except String (String × BState) :=
  match keywordStage m kw name keys args s with
  | Except.error e => Except.error e
  | Except.ok (key, tempk, keys1, s1) =>
    match whereStage m wc key tempk keys1 s1 with
    | (key2, tempk2, s2) =>
      match getFieldStage m gf key2 tempk2 s2 with
      | (key3, tempk3, s3) => Except.ok (expireStage key3 tempk3 s3)

mutual
/-- Embeds RedisQuery._build for one query element: fold the children into
keys and args (sub-queries compile recursively onto the same pipeline),
then run the element body buildElemCore. -/
def buildElem (m : BMeta) (q : QueryElem) (s : BState) :
    Except String (String × BState) :=
  match q with
  | QueryElem.mk kw name children wc gf =>
    match buildChildren m children [] [] s with
    | Except.error e => Except.error e
    | Except.ok (keys, args, s1) => buildElemCore m kw name wc gf keys args s1
/-- Children loop of _build: a sub-query child is compiled to a key
appended to keys, also extending args with (set, key); a (lookup, value)
child only extends args. -/
def buildChildren (m : BMeta) (cs : List (QChild QueryElem))
    (keys args : List String) (s : BState) :
    Except String (List String × List String × BState) :=
  match cs with
  | [] => Except.ok (keys, args, s)
  | QChild.sub q :: rest =>
    match buildElem m q s with
    | Except.error e => Except.error e
    | Except.ok (k, s1) =>
      buildChildren m rest (keys ++ [k]) (args ++ ["set", k]) s1
  | QChild.pair l v :: rest =>
    buildChildren m rest keys (args ++ [l, v]) s
end

/-- Keys of the expire commands in a command list, in queueing order. -/
def expireKeys (cs : List Cmd) : List String :=
  cs.filterMap fun c =>
    match c with
    | Cmd.expire k => some k
    | _ => none

/-! ### Theorems -/

/-- C3: for every explicitly ordered query of cardinality N sliced with
python indices, RedisQuery._items obtains N via the cardinality
sub-pipeline (usedCard), converts negative start/stop by adding N, defaults
a missing stop to N, and replaces stop with the length stop - start; the
load options carry ordering name explicit. -/
theorem items_explicit_order_slice_resolution (m : ItemsMeta) (q : ItemsQuery)
    (N : Int) (o : OrderSpec) (st sp : Option Int)
    (hord : q.elemOrdering = some o) (hget : q.getField = none) :
    ∃ c, items m q N (some ⟨st, sp⟩) = Except.ok c ∧
      c.usedCard = true ∧ c.options.ordering = "explicit" ∧
      c.options.order = some o ∧
      c.options.start = (if st.getD 0 < 0 then st.getD 0 + N else st.getD 0) ∧
      c.options.stop =
        (match sp with
          | none => N
          | some v => if v < 0 then v + N else v) -
        (if st.getD 0 < 0 then st.getD 0 + N else st.getD 0) := by
  rcases q with ⟨eo, gf, fl, sr⟩
  obtain rfl : eo = some o := hord
  obtain rfl : gf = none := hget
  simp only [items, get_redis_slice]
  split
  · exact ⟨_, rfl, rfl, rfl, rfl, rfl, rfl⟩
  · split
    · exact ⟨_, rfl, rfl, rfl, rfl, rfl, rfl⟩
    · exact ⟨_, rfl, rfl, rfl, rfl, rfl, rfl⟩

/-- Witness for C3: a 10-element explicitly ordered query sliced [-3:-1]
resolves to start = 7 and stop = 2. -/
theorem items_explicit_order_slice_resolution_witness :
    ∃ c, items ⟨"id", none, ⟨"", "", false, []⟩, fun l => (l, l)⟩
        ⟨some ⟨"f", "", false, []⟩, none, [], []⟩ 10
        (some ⟨some (-3), some (-1)⟩) = Except.ok c ∧
      c.usedCard = true ∧ c.options.ordering = "explicit" ∧
      c.options.start = 7 ∧ c.options.stop = 2 := by
  obtain ⟨c, h1, h2, h3, _h4, h5, h6⟩ :=
    items_explicit_order_slice_resolution
      ⟨"id", none, ⟨"", "", false, []⟩, fun l => (l, l)⟩
      ⟨some ⟨"f", "", false, []⟩, none, [], []⟩ 10 ⟨"f", "", false, []⟩
      (some (-3)) (some (-1)) rfl rfl
  refine ⟨c, h1, h2, h3, ?_, ?_⟩
  · rw [h5]; decide
  · rw [h6]; decide

/-- C2 counterexample: the claim permits slicing combined with a
primary-key projection, but RedisQuery._items raises QuerySetError even
when get_field equals the primary-key name (the slice check precedes the
primary-key test). -/
theorem items_pk_get_slice_raises :
    items ⟨"id", none, ⟨"", "", false, []⟩, fun l => (l, l)⟩
        ⟨none, some "id", [], []⟩ 0 (some ⟨some 0, some 2⟩) =
      Except.error
        "Cannot slice a queryset in conjunction with get_field. Use load_only instead." :=
  rfl

/-- C2 amended: for every query evaluation with a slice and a single-field
projection, RedisQuery._items fails fast with a usage error before issuing
the load command, with no exception for the primary key. -/
theorem items_get_with_slice_always_errors (m : ItemsMeta) (q : ItemsQuery)
    (N : Int) (s : Slice) (g : String) (hg : q.getField = some g) :
    items m q N (some s) =
      Except.error
        "Cannot slice a queryset in conjunction with get_field. Use load_only instead." := by
  rcases q with ⟨eo, gf, fl, sr⟩
  obtain rfl : gf = some g := hg
  simp [items]

/-- Witness for the amended C2: a sliced query with a non-key projection
errors out. -/
theorem items_get_with_slice_always_errors_witness :
    items ⟨"id", none, ⟨"", "", false, []⟩, fun l => (l, l)⟩
        ⟨none, some "name", [], []⟩ 0 (some ⟨none, some 5⟩) =
      Except.error
        "Cannot slice a queryset in conjunction with get_field. Use load_only instead." :=
  items_get_with_slice_always_errors
    ⟨"id", none, ⟨"", "", false, []⟩, fun l => (l, l)⟩
    ⟨none, some "name", [], []⟩ 0 ⟨none, some 5⟩ "name" rfl

/-- C4: odmrun._wrap_commit zips the commit response with the submitted
iids and yields, per instance, a success result carrying the
store-assigned id and the score info when the flag is truthy, and a
CommitException carrying the store message when it is falsy; the output at
every index depends only on that index, so sibling instances of the batch
are neither dropped nor altered. -/
theorem wrap_commit_per_instance (response : List ResponseItem)
    (iids : List String) :
    (wrap_commit response iids).length = min response.length iids.length ∧
    ∀ i : Nat, ∀ r : ResponseItem, ∀ iid : String,
      response[i]? = some r → iids[i]? = some iid →
      (wrap_commit response iids)[i]? =
        some (if r.flag ≠ 0 then
                CommitOut.result ⟨iid, true, r.id, false, r.info⟩
              else CommitOut.exc r.info) := by
  constructor
  · simp [wrap_commit]
  · intro i r iid hr hi
    have hz : (response.zip iids)[i]? = some (r, iid) := by
      rw [List.getElem?_zip_eq_some]
      exact ⟨hr, hi⟩
    simp [wrap_commit, hz]

/-- Witness for C4: a batch of three instances where the second fails
yields exactly one CommitException for the second and success results for
the first and third. -/
theorem wrap_commit_per_instance_witness :
    (wrap_commit [⟨"1", 1, "0.5"⟩, ⟨"", 0, "invalid field"⟩, ⟨"3", 1, "0.75"⟩]
        ["a", "b", "c"]).length = 3 ∧
    (wrap_commit [⟨"1", 1, "0.5"⟩, ⟨"", 0, "invalid field"⟩, ⟨"3", 1, "0.75"⟩]
        ["a", "b", "c"])[0]? =
      some (CommitOut.result ⟨"a", true, "1", false, "0.5"⟩) ∧
    (wrap_commit [⟨"1", 1, "0.5"⟩, ⟨"", 0, "invalid field"⟩, ⟨"3", 1, "0.75"⟩]
        ["a", "b", "c"])[1]? = some (CommitOut.exc "invalid field") ∧
    (wrap_commit [⟨"1", 1, "0.5"⟩, ⟨"", 0, "invalid field"⟩, ⟨"3", 1, "0.75"⟩]
        ["a", "b", "c"])[2]? =
      some (CommitOut.result ⟨"c", true, "3", false, "0.75"⟩) := by
  obtain ⟨hl, hp⟩ :=
    wrap_commit_per_instance
      [⟨"1", 1, "0.5"⟩, ⟨"", 0, "invalid field"⟩, ⟨"3", 1, "0.75"⟩]
      ["a", "b", "c"]
  refine ⟨by simpa using hl, ?_, ?_, ?_⟩
  · simpa using hp 0 ⟨"1", 1, "0.5"⟩ "a" rfl rfl
  · simpa using hp 1 ⟨"", 0, "invalid field"⟩ "b" rfl rfl
  · simpa using hp 2 ⟨"3", 1, "0.75"⟩ "c" rfl rfl

/-- C7 counterexample: List.flush with both buffers pending issues two
additive commands (lpush and rpush), refuting the at-most-one-additive
clause; and flush leaves the cache untouched, so the pair of two
consecutive flushes of the same unchanged non-empty Set cache queues the
sadd mutation twice, refuting the no-second-mutation clause. -/
theorem flush_list_two_additive_and_reflush :
    ((listFlush "k" ⟨["a"], ["b"]⟩).1.countP (fun c => c.isAdditive) = 2 ∧
      (listFlush "k" ⟨["a"], ["b"]⟩).1.countP (fun c => c.isRemoval) = 0) ∧
    (setFlush "k" ⟨["x"], []⟩).1 ++ (setFlush "k" ⟨["x"], []⟩).1 =
      [SCmd.sadd "k" ["x"], SCmd.sadd "k" ["x"]] := by
  decide

/-- C7 amended: for each structure kind, flushing a cache with no pending
operations issues no command and returns the falsy None, and commands are
issued exactly when the result is truthy; otherwise flush issues at most
one command per pending buffer: at most one additive and at most one
removal for set, zset and hash, at most one additive append for string,
and at most one front push plus one back push (both additive, no removal)
for list.  Flush never clears the cache, so flushing twice is free of a
second mutation exactly when the caller cleared the cache in between,
the empty-cache case above. -/
theorem flush_idle_noop_and_command_bounds (id : String) :
    (∀ c : SetCache,
      (c.toadd = [] ∧ c.toremove = [] → setFlush id c = ([], none)) ∧
      ((setFlush id c).1 = [] ↔ (setFlush id c).2 = none) ∧
      (setFlush id c).1.countP (fun x => x.isAdditive) ≤ 1 ∧
      (setFlush id c).1.countP (fun x => x.isRemoval) ≤ 1) ∧
    (∀ c : ZsetCache,
      (c.toadd = [] ∧ c.toremove = [] → zsetFlush id c = ([], none)) ∧
      ((zsetFlush id c).1 = [] ↔ (zsetFlush id c).2 = none) ∧
      (zsetFlush id c).1.countP (fun x => x.isAdditive) ≤ 1 ∧
      (zsetFlush id c).1.countP (fun x => x.isRemoval) ≤ 1) ∧
    (∀ c : HashCache,
      (c.toadd = [] ∧ c.toremove = [] → hashFlush id c = ([], none)) ∧
      ((hashFlush id c).1 = [] ↔ (hashFlush id c).2 = none) ∧
      (hashFlush id c).1.countP (fun x => x.isAdditive) ≤ 1 ∧
      (hashFlush id c).1.countP (fun x => x.isRemoval) ≤ 1) ∧
    (∀ d : String,
      (d = "" → stringFlush id d = ([], none)) ∧
      ((stringFlush id d).1 = [] ↔ (stringFlush id d).2 = none) ∧
      (stringFlush id d).1.countP (fun x => x.isAdditive) ≤ 1 ∧
      (stringFlush id d).1.countP (fun x => x.isRemoval) = 0) ∧
    (∀ c : ListCache,
      (c.front = [] ∧ c.back = [] → listFlush id c = ([], none)) ∧
      ((listFlush id c).1 = [] ↔ (listFlush id c).2 = none) ∧
      (listFlush id c).1.countP (fun x => x.isAdditive) ≤ 2 ∧
      (listFlush id c).1.countP (fun x => x.isRemoval) = 0) := by
  refine ⟨?_, ?_, ?_, ?_, ?_⟩
  · intro c
    rcases c with ⟨ta, tr⟩
    cases ta <;> cases tr <;>
      simp [setFlush, List.countP_cons, SCmd.isAdditive, SCmd.isRemoval]
  · intro c
    rcases c with ⟨ta, tr⟩
    cases ta <;> cases tr <;>
      simp [zsetFlush, List.countP_cons, SCmd.isAdditive, SCmd.isRemoval]
  · intro c
    rcases c with ⟨ta, tr⟩
    cases ta <;> cases tr <;>
      simp [hashFlush, List.countP_cons, SCmd.isAdditive, SCmd.isRemoval]
  · intro d
    by_cases hd : d = "" <;>
      simp [stringFlush, hd, List.countP_cons, SCmd.isAdditive, SCmd.isRemoval]
  · intro c
    rcases c with ⟨fr, bk⟩
    cases fr <;> cases bk <;>
      simp [listFlush, List.countP_cons, SCmd.isAdditive, SCmd.isRemoval]

/-- Witness for the amended C7: empty caches flush to no command and None;
a full Set cache issues one sadd and one srem; a full List cache issues two
pushes and no removal. -/
theorem flush_idle_noop_and_command_bounds_witness :
    setFlush "k" ⟨[], []⟩ = ([], none) ∧
    (setFlush "k" ⟨["a"], ["b"]⟩).1.countP (fun x => x.isRemoval) ≤ 1 ∧
    (listFlush "k" ⟨["a"], ["b"]⟩).1.countP (fun x => x.isAdditive) ≤ 2 := by
  obtain ⟨hs, _, _, _, hl⟩ := flush_idle_noop_and_command_bounds "k"
  exact ⟨(hs ⟨[], []⟩).1 ⟨rfl, rfl⟩, (hs ⟨["a"], ["b"]⟩).2.2.2,
    (hl ⟨["a"], ["b"]⟩).2.2.1⟩

/-- C10: TS.flush queues the ts add script exactly when additions are
pending; pending removals raise NotImplementedError after the additive
script (if any) was already queued; the flush returns True with exactly
one ts add script call precisely when the cache has additions and no
removals, and an idle cache flushes to no command and None. -/
theorem ts_flush_remove_not_implemented (id : String) (c : TSCache) :
    (c.toremove ≠ [] →
      (tsFlush id c).2 =
        Except.error "NotImplementedError: Cannot remove. TSDEL not implemented" ∧
      (tsFlush id c).1 = (if c.toadd = [] then [] else [SCmd.tsAdd id c.toadd])) ∧
    ((tsFlush id c).2 = Except.ok (some true) ∧
        (tsFlush id c).1 = [SCmd.tsAdd id c.toadd] ↔
      c.toadd ≠ [] ∧ c.toremove = []) ∧
    (c.toadd = [] ∧ c.toremove = [] → tsFlush id c = ([], Except.ok none)) := by
  rcases c with ⟨ta, tr⟩
  cases ta <;> cases tr <;> simp [tsFlush]

/-- Witness for C10: a cache with one addition and one removal queues the
add script and raises; a cache with only additions returns True with one
script call. -/
theorem ts_flush_remove_not_implemented_witness :
    ((tsFlush "k" ⟨[("1", "v")], ["2"]⟩).2 =
        Except.error "NotImplementedError: Cannot remove. TSDEL not implemented" ∧
      (tsFlush "k" ⟨[("1", "v")], ["2"]⟩).1 =
        (if ([("1", "v")] : List (String × String)) = [] then []
          else [SCmd.tsAdd "k" [("1", "v")]])) ∧
    ((tsFlush "k" ⟨[("1", "v")], []⟩).2 = Except.ok (some true) ∧
      (tsFlush "k" ⟨[("1", "v")], []⟩).1 = [SCmd.tsAdd "k" [("1", "v")]]) := by
  refine ⟨(ts_flush_remove_not_implemented "k" ⟨[("1", "v")], ["2"]⟩).1 (by decide), ?_⟩
  exact (ts_flush_remove_not_implemented "k" ⟨[("1", "v")], []⟩).2.1.2
    ⟨by decide, rfl⟩

/-- Session resolution of the merge loop is independent of the weights and
errors on the first group with no timeseries participant. -/
theorem mergeSessions_err_of_empty (series : List WeightedGroup) :
    ∀ sess : Option Nat, (∃ g ∈ series, g.members = []) →
      mergeSessions sess series =
        Except.error
          (MergeError.valueError "merge requires tuples of length 2 or more") := by
  induction series with
  | nil => intro sess h; simp at h
  | cons g gs ih =>
    intro sess h
    by_cases hg : g.members = []
    · simp [mergeSessions, hg]
    · have hlen : 0 < g.members.length := List.length_pos.mpr hg
      have h' : ∃ g' ∈ gs, g'.members = [] := by
        rcases h with ⟨g', hmem, he⟩
        rcases List.mem_cons.mp hmem with rfl | hmem'
        · exact absurd he hg
        · exact ⟨g', hmem', he⟩
      rw [mergeSessions, if_neg (by omega)]
      exact ih _ h'

/-- Session resolution keeps None when no operand supplies a session. -/
theorem mergeSessions_none_of_no_session (series : List WeightedGroup)
    (hne : ∀ g ∈ series, g.members ≠ [])
    (hns : ∀ g ∈ series, ∀ s ∈ g.members, s.session = none) :
    mergeSessions none series = Except.ok none := by
  induction series with
  | nil => rfl
  | cons g gs ih =>
    have hlen : 0 < g.members.length :=
      List.length_pos.mpr (hne g (by simp))
    rw [mergeSessions]
    rw [if_neg (by omega)]
    have hfold : ∀ ms : List SeriesOperand,
        (∀ s ∈ ms, s.session = none) →
        ms.foldl (fun s o => if s.isNone then o.session else s)
          (none : Option Nat) = none := by
      intro ms
      induction ms with
      | nil => intro _; rfl
      | cons a as iha =>
        intro hm
        simp only [List.foldl_cons, Option.isNone_none, if_pos]
        rw [hm a (by simp)]
        exact iha fun s hs => hm s (by simp [hs])
    rw [hfold g.members fun s hs => hns g (by simp) s hs]
    exact ih (fun g' hg' => hne g' (by simp [hg']))
      (fun g' hg' => hns g' (by simp [hg']))

/-- C8: ColumnTS.merge raises the configuration ValueError when any
weighted group carries no timeseries participant beyond the weight, and
raises SessionNotAvailable when neither the target nor any operand series
supplies a session; both checks fire before the backend merge call, which
only a successful result carries. -/
theorem merge_arity_and_session_errors (selfS : Option Nat)
    (series : List WeightedGroup) (fields : List String) :
    ((∃ g ∈ series, g.members = []) →
      merge selfS series fields =
        Except.error
          (MergeError.valueError "merge requires tuples of length 2 or more")) ∧
    ((∀ g ∈ series, g.members ≠ []) → selfS = none →
      (∀ g ∈ series, ∀ s ∈ g.members, s.session = none) →
      merge selfS series fields =
        Except.error (MergeError.sessionNotAvailable "No session available")) := by
  constructor
  · intro h
    unfold merge
    rw [mergeSessions_err_of_empty series selfS h]
  · intro hne hs hns
    subst hs
    unfold merge
    rw [mergeSessions_none_of_no_session series hne hns]

/-- Witness for C8: a group holding only a weight raises the ValueError;
a sessionless merge over one sessionless operand raises
SessionNotAvailable. -/
theorem merge_arity_and_session_errors_witness :
    merge none [⟨5, []⟩] [] =
      Except.error
        (MergeError.valueError "merge requires tuples of length 2 or more") ∧
    merge none [⟨5, [⟨none⟩]⟩] [] =
      Except.error (MergeError.sessionNotAvailable "No session available") := by
  constructor
  · exact (merge_arity_and_session_errors none [⟨5, []⟩] []).1
      ⟨⟨5, []⟩, by simp, rfl⟩
  · exact (merge_arity_and_session_errors none [⟨5, [⟨none⟩]⟩] []).2
      (by simp) rfl (by simp)

/-- C9: execute_session serializes every valid dirty instance to the
record (action, id, score, len, ...data) whose score slot is the sentinel
MIN_FLOAT = -1e99 when the model has no ordering or the ordering value is
None, the auto-increment counter reference when the ordering is auto, and
scorefun of the instance value otherwise. -/
theorem execute_session_score_branches (ordering : Option MOrdering)
    (inst : DirtyInstance) (hv : inst.valid = true) :
    MIN_FLOAT = -(10 ^ 99) ∧
    ∃ l, instanceLua ordering inst = Except.ok l ∧
      l[2]? = some
        (match ordering with
          | none => LuaVal.n MIN_FLOAT
          | some o =>
            if o.auto then LuaVal.counter
            else
              match inst.orderingValue with
              | none => LuaVal.n MIN_FLOAT
              | some v => LuaVal.n (o.scorefun v)) := by
  refine ⟨rfl, ?_⟩
  simp only [instanceLua, hv]
  rw [if_neg (by simp)]
  exact ⟨_, rfl, rfl⟩

/-- Witness for C9: a valid instance of a non-auto ordered model with
value 5 and scorefun (+1) commits score 6; the sentinel equals -1e99. -/
theorem execute_session_score_branches_witness :
    MIN_FLOAT = -(10 ^ 99) ∧
    ∃ l, instanceLua (some ⟨false, fun v => v + 1⟩)
        ⟨"i1", false, some "1", "add", some 5, [("k", "v")], true⟩ =
        Except.ok l ∧
      l[2]? = some (LuaVal.n 6) := by
  obtain ⟨hm, l, hl, h2⟩ :=
    execute_session_score_branches (some ⟨false, fun v => v + 1⟩)
      ⟨"i1", false, some "1", "add", some 5, [("k", "v")], true⟩ rfl
  exact ⟨hm, l, hl, by simpa using h2⟩

/-- Cascade of any model ends by queueing the delete command of the model
itself, so it is always present. -/
theorem delete_self_mem (mdl : DModel) :
    DCmd.delete mdl.name ∈ accumulate_delete mdl := by
  cases mdl with
  | mk n rels => simp [accumulate_delete, DModel.name]

/-- Second loop of the cascade queues the dependent delete of every
required non-self-referential relation. -/
theorem relPass_mem_delete (rels : List DRel) (r : DRel) (hr : r ∈ rels)
    (hs : r.selfRef = false) (hq : r.required = true) :
    DCmd.delete r.relmodel.name ∈ relPass rels := by
  induction rels with
  | nil => simp at hr
  | cons a rest ih =>
    rcases List.mem_cons.mp hr with rfl | hr'
    · cases r with
      | mk an req selfr child =>
        simp only [DRel.selfRef] at hs
        simp only [DRel.required] at hq
        subst hs; subst hq
        rw [relPass]
        refine List.mem_append_left _ ?_
        rw [if_pos (by simp)]
        exact delete_self_mem child
    · cases a with
      | mk a2 req2 selfr2 child2 =>
        rw [relPass]
        exact List.mem_append_right _ (ih hr')

/-- Dropping the relations that are neither self-referential nor required
does not change the aggregate commands of the first cascade loop. -/
theorem aggPass_filter (n : String) (rels : List DRel) :
    aggPass n (rels.filter fun r => r.selfRef || r.required) = aggPass n rels := by
  induction rels with
  | nil => rfl
  | cons a rest ih =>
    cases a with
    | mk an req selfr child =>
      cases selfr <;> cases req <;>
        simp_all [aggPass, List.filter_cons, DRel.selfRef, DRel.required]

/-- Dropping the relations that are neither self-referential nor required
does not change the recursive deletes of the second cascade loop. -/
theorem relPass_filter (rels : List DRel) :
    relPass (rels.filter fun r => r.selfRef || r.required) = relPass rels := by
  induction rels with
  | nil => rfl
  | cons a rest ih =>
    cases a with
    | mk an req selfr child =>
      cases selfr <;> cases req <;>
        simp_all [relPass, List.filter_cons, DRel.selfRef, DRel.required]

/-- C5: accumulate_delete queues, before the model's own delete command
(which comes last), one aggregate command per self-referential relation and
the recursively accumulated delete of every related manager whose field is
required (so each dependent's delete precedes the parent's), while
relations that are neither self-referential nor required contribute no
command at all (erasing them leaves the pipeline unchanged). -/
theorem accumulate_delete_cascade (n : String) (rels : List DRel) :
    (accumulate_delete (DModel.mk n rels)).getLast? = some (DCmd.delete n) ∧
    (∀ r ∈ rels, r.selfRef = true →
      DCmd.aggregate n r.attname ∈
        (accumulate_delete (DModel.mk n rels)).dropLast) ∧
    (∀ r ∈ rels, r.selfRef = false → r.required = true →
      DCmd.delete r.relmodel.name ∈
        (accumulate_delete (DModel.mk n rels)).dropLast) ∧
    accumulate_delete
        (DModel.mk n (rels.filter fun r => r.selfRef || r.required)) =
      accumulate_delete (DModel.mk n rels) := by
  have hout : accumulate_delete (DModel.mk n rels) =
      (aggPass n rels ++ relPass rels) ++ [DCmd.delete n] := by
    rw [accumulate_delete, List.append_assoc]
  refine ⟨?_, ?_, ?_, ?_⟩
  · rw [hout, List.getLast?_concat]
  · intro r hr hs
    rw [hout, List.dropLast_concat]
    refine List.mem_append_left _ ?_
    exact List.mem_filterMap.mpr ⟨r, hr, by rw [if_pos (by simp [hs])]⟩
  · intro r hr hs hq
    rw [hout, List.dropLast_concat]
    exact List.mem_append_right _ (relPass_mem_delete rels r hr hs hq)
  · rw [accumulate_delete, accumulate_delete, aggPass_filter, relPass_filter]

/-- Witness for C5: a parent with one self-referential relation, one
required dependent relation and one optional relation queues the aggregate
and the dependent delete before its own final delete, and erasing the
optional relation changes nothing. -/
theorem accumulate_delete_cascade_witness :
    (accumulate_delete (DModel.mk "p"
        [DRel.mk "a" false true (DModel.mk "x" []),
          DRel.mk "b" true false (DModel.mk "c" []),
          DRel.mk "d" false false (DModel.mk "e" [])])).getLast? =
      some (DCmd.delete "p") ∧
    DCmd.aggregate "p" "a" ∈
      (accumulate_delete (DModel.mk "p"
        [DRel.mk "a" false true (DModel.mk "x" []),
          DRel.mk "b" true false (DModel.mk "c" []),
          DRel.mk "d" false false (DModel.mk "e" [])])).dropLast ∧
    DCmd.delete "c" ∈
      (accumulate_delete (DModel.mk "p"
        [DRel.mk "a" false true (DModel.mk "x" []),
          DRel.mk "b" true false (DModel.mk "c" []),
          DRel.mk "d" false false (DModel.mk "e" [])])).dropLast ∧
    accumulate_delete (DModel.mk "p"
        ([DRel.mk "a" false true (DModel.mk "x" []),
          DRel.mk "b" true false (DModel.mk "c" []),
          DRel.mk "d" false false (DModel.mk "e" [])].filter
          fun r => r.selfRef || r.required)) =
      accumulate_delete (DModel.mk "p"
        [DRel.mk "a" false true (DModel.mk "x" []),
          DRel.mk "b" true false (DModel.mk "c" []),
          DRel.mk "d" false false (DModel.mk "e" [])]) := by
  obtain ⟨h1, h2, h3, h4⟩ := accumulate_delete_cascade "p"
    [DRel.mk "a" false true (DModel.mk "x" []),
      DRel.mk "b" true false (DModel.mk "c" []),
      DRel.mk "d" false false (DModel.mk "e" [])]
  refine ⟨h1, ?_, ?_, h4⟩
  · exact h2 (DRel.mk "a" false true (DModel.mk "x" [])) (by simp) rfl
  · simpa using
      h3 (DRel.mk "b" true false (DModel.mk "c" [])) (by simp) rfl rfl

/-- Expire keys distribute over command concatenation. -/
theorem expireKeys_append (a b : List Cmd) :
    expireKeys (a ++ b) = expireKeys a ++ expireKeys b := by
  simp [expireKeys, List.filterMap_append]

/-- State s1 extends s with expiry-free commands and with exactly the
pending temporary key (when the temp_key flag is set) appended to the
created list. -/
def pendingFrom (s : BState) (key : String) (tempk : Bool) (s1 : BState) : Prop :=
  expireKeys s1.cmds = expireKeys s.cmds ∧
  s1.created = s.created ++ (if tempk then [key] else [])

/-- Keyword dispatch creates at most one pending temporary key (exactly
when temp_key comes out true) and queues no expiry. -/
theorem keywordStage_pend (m : BMeta) (kw name : String)
    (keys args : List String) (s : BState) (key : String) (tempk : Bool)
    (keys1 : List String) (s1 : BState)
    (h : keywordStage m kw name keys args s = Except.ok (key, tempk, keys1, s1)) :
    pendingFrom s key tempk s1 := by
  simp only [keywordStage, newTemp, emit] at h
  repeat' split at h
  all_goals
    simp only [Except.ok.injEq, Prod.mk.injEq, reduceCtorEq] at h
  all_goals obtain ⟨rfl, rfl, rfl, rfl⟩ := h
  all_goals
    simp [pendingFrom, expireKeys_append, expireKeys, List.filterMap_cons]

/-- The where pass preserves the pending-key invariant: it allocates a
temporary key only when none exists yet and queues no expiry. -/
theorem whereStage_pend (m : BMeta) (wc : Option String) (s0 : BState)
    (key : String) (tempk : Bool) (keys : List String) (s : BState)
    (key2 : String) (tempk2 : Bool) (s2 : BState)
    (h : whereStage m wc key tempk keys s = (key2, tempk2, s2))
    (hp : pendingFrom s0 key tempk s) :
    pendingFrom s0 key2 tempk2 s2 := by
  obtain ⟨he, hk⟩ := hp
  simp only [whereStage, newTemp, emit] at h
  repeat' split at h
  all_goals simp only [Prod.mk.injEq] at h
  all_goals obtain ⟨rfl, rfl, rfl⟩ := h
  all_goals refine ⟨?_, ?_⟩
  all_goals first
    | exact he
    | exact hk
    | (rw [expireKeys_append, he]; simp [expireKeys])
    | simp_all

/-- The projection pass preserves the pending-key invariant: it allocates
a temporary key only when none exists yet and queues no expiry. -/
theorem getFieldStage_pend (m : BMeta) (gf : Option String) (s0 : BState)
    (key : String) (tempk : Bool) (s : BState)
    (key2 : String) (tempk2 : Bool) (s2 : BState)
    (h : getFieldStage m gf key tempk s = (key2, tempk2, s2))
    (hp : pendingFrom s0 key tempk s) :
    pendingFrom s0 key2 tempk2 s2 := by
  obtain ⟨he, hk⟩ := hp
  simp only [getFieldStage, newTemp, emit] at h
  repeat' split at h
  all_goals simp only [Prod.mk.injEq] at h
  all_goals obtain ⟨rfl, rfl, rfl⟩ := h
  all_goals refine ⟨?_, ?_⟩
  all_goals first
    | exact he
    | exact hk
    | (rw [expireKeys_append, he]; simp [expireKeys])
    | simp_all

/-- Element body of _build preserves the global invariant that the expired
keys equal the created temporary keys: the final expiry fires exactly when
a pending key exists and targets exactly that key. -/
theorem buildElemCore_inv (m : BMeta) (kw name : String) (wc gf : Option String)
    (keys args : List String) (s : BState) (k : String) (s' : BState)
    (h : buildElemCore m kw name wc gf keys args s = Except.ok (k, s'))
    (hinv : expireKeys s.cmds = s.created) :
    expireKeys s'.cmds = s'.created := by
  unfold buildElemCore at h
  rcases hks : keywordStage m kw name keys args s with e | ⟨key, tempk, keys1, s1⟩
  · rw [hks] at h; exact absurd h (by simp)
  · rw [hks] at h
    dsimp only at h
    rcases hw : whereStage m wc key tempk keys1 s1 with ⟨key2, tempk2, s2⟩
    rw [hw] at h
    dsimp only at h
    rcases hg : getFieldStage m gf key2 tempk2 s2 with ⟨key3, tempk3, s3⟩
    rw [hg] at h
    dsimp only at h
    simp only [Except.ok.injEq] at h
    have hp := getFieldStage_pend m gf s key2 tempk2 s2 key3 tempk3 s3 hg
      (whereStage_pend m wc s key tempk keys1 s1 key2 tempk2 s2 hw
        (keywordStage_pend m kw name keys args s key tempk keys1 s1 hks))
    obtain ⟨he, hk⟩ := hp
    cases tempk3 with
    | false =>
      simp only [expireStage, Bool.false_eq_true, if_false, Prod.mk.injEq] at h
      obtain ⟨rfl, rfl⟩ := h
      simp only [Bool.false_eq_true, if_false, List.append_nil] at hk
      exact he.trans (hinv.trans hk.symm)
    | true =>
      simp only [expireStage, if_true, Prod.mk.injEq] at h
      obtain ⟨rfl, rfl⟩ := h
      simp only [emit]
      simp only [if_true] at hk
      rw [expireKeys_append, he, hinv, hk]
      simp [expireKeys]

mutual
/-- Recursive compilation of a query element preserves the invariant that
the expired keys of the pipeline equal the created temporary keys. -/
theorem buildElem_inv (m : BMeta) (q : QueryElem) (s : BState) (k : String)
    (s' : BState) (h : buildElem m q s = Except.ok (k, s'))
    (hinv : expireKeys s.cmds = s.created) :
    expireKeys s'.cmds = s'.created := by
  cases q with
  | mk kw name children wc gf =>
    unfold buildElem at h
    rcases hbc : buildChildren m children [] [] s with e | ⟨keys, args, s1⟩
    · rw [hbc] at h; exact absurd h (by simp)
    · rw [hbc] at h
      dsimp only at h
      exact buildElemCore_inv m kw name wc gf keys args s1 k s' h
        (buildChildren_inv m children [] [] s (keys, args, s1) hbc hinv)
/-- Children compilation preserves the same invariant. -/
theorem buildChildren_inv (m : BMeta) (cs : List (QChild QueryElem))
    (keys args : List String) (s : BState)
    (r : List String × List String × BState)
    (h : buildChildren m cs keys args s = Except.ok r)
    (hinv : expireKeys s.cmds = s.created) :
    expireKeys r.2.2.cmds = r.2.2.created := by
  cases cs with
  | nil =>
    unfold buildChildren at h
    simp only [Except.ok.injEq] at h
    subst h
    exact hinv
  | cons c rest =>
    cases c with
    | sub q =>
      unfold buildChildren at h
      rcases hbe : buildElem m q s with e | ⟨kq, s1⟩
      · rw [hbe] at h; exact absurd h (by simp)
      · rw [hbe] at h
        dsimp only at h
        exact buildChildren_inv m rest (keys ++ [kq]) (args ++ ["set", kq]) s1 r h
          (buildElem_inv m q s kq s1 hbe hinv)
    | pair l v =>
      unfold buildChildren at h
      exact buildChildren_inv m rest keys (args ++ [l, v]) s r h hinv
end

/-- C1: for every query tree successfully compiled by RedisQuery._build on
a fresh pipeline, the keys given an expiry command equal, in order, the
temporary keys created during the compilation - every temporary key is
expired on the same pipeline before its element's compilation finishes,
and when no temporary key is created no expiry is issued. -/
theorem build_tempkeys_all_expired (m : BMeta) (q : QueryElem) (n : Nat)
    (k : String) (s' : BState)
    (h : buildElem m q ⟨n, [], []⟩ = Except.ok (k, s')) :
    expireKeys s'.cmds = s'.created :=
  buildElem_inv m q ⟨n, [], []⟩ k s' h rfl

/-- Witness for C1: an intersect query over a primary-key sub-query and a
filtered sub-query creates two temporary keys and expires exactly those
two, while the reused permanent key ns:id is never expired. -/
theorem build_tempkeys_all_expired_witness :
    expireKeys
        [Cmd.queryRun ["ns:tmp:0"] "name" ["meta:ns", "eq", "3"],
          Cmd.expire "ns:tmp:0",
          Cmd.move2set ["ns:id", "ns:tmp:0"] "z",
          Cmd.store "zinterstore" "ns:tmp:1" ["ns:id", "ns:tmp:0"],
          Cmd.expire "ns:tmp:1"] = ["ns:tmp:0", "ns:tmp:1"] :=
  build_tempkeys_all_expired ⟨"id", true, "ns", fun _ => "fa"⟩
    (QueryElem.mk "intersect" "x"
      [QChild.sub (QueryElem.mk "set" "id" [] none none),
        QChild.sub (QueryElem.mk "set" "name" [QChild.pair "eq" "3"] none none)]
      none none) 0 "ns:tmp:1"
    ⟨2, [Cmd.queryRun ["ns:tmp:0"] "name" ["meta:ns", "eq", "3"],
          Cmd.expire "ns:tmp:0",
          Cmd.move2set ["ns:id", "ns:tmp:0"] "z",
          Cmd.store "zinterstore" "ns:tmp:1" ["ns:id", "ns:tmp:0"],
          Cmd.expire "ns:tmp:1"],
      ["ns:tmp:0", "ns:tmp:1"]⟩ rfl

/-- C6 counterexample: a set element on the primary-key name with no
filter arguments but with a single-field projection other than the primary
key does create a temporary key, returns it (not the permanent index key)
as the query key, and attaches an expiry. -/
theorem build_pk_set_projection_tempkey :
    ∃ p : String × BState,
      buildElem ⟨"id", false, "ns", fun _ => "fattr"⟩
          (QueryElem.mk "set" "id" [] none (some "f")) ⟨0, [], []⟩ =
        Except.ok p ∧
      p.1 ≠ basekey ⟨"id", false, "ns", fun _ => "fattr"⟩ ["id"] ∧
      p.2.created ≠ [] ∧ expireKeys p.2.cmds ≠ [] := by
  refine ⟨("ns:tmp:0",
    ⟨1, [Cmd.sortStore "ns:id" "ns:obj:*->fattr" "ns:tmp:0",
          Cmd.expire "ns:tmp:0"], ["ns:tmp:0"]⟩), rfl, ?_, ?_, ?_⟩ <;> decide

/-- C6 amended: a set element whose name is the primary-key name, with no
filter arguments, no where clause and no projection other than the primary
key, compiles to the permanent primary-key index key with the pipeline
state untouched: no temporary key, no query script, no expiry, no command
at all. -/
theorem build_pk_set_reuses_index_key (m : BMeta) (gf : Option String)
    (s : BState) (hgf : gf = none ∨ gf = some m.pkname) :
    buildElem m (QueryElem.mk "set" m.pkname [] none gf) s =
      Except.ok (basekey m ["id"], s) := by
  have hc : buildChildren m [] [] [] s = Except.ok ([], [], s) := rfl
  unfold buildElem
  rw [hc]
  dsimp only
  unfold buildElemCore
  have hks : keywordStage m "set" m.pkname [] [] s =
      Except.ok (basekey m ["id"], false, [], s) := by
    unfold keywordStage
    rw [if_pos rfl, if_pos ⟨rfl, rfl⟩]
  rw [hks]
  dsimp only
  rcases hgf with rfl | rfl
  · rfl
  · show Except.ok (expireStage
      (getFieldStage m (some m.pkname) (basekey m ["id"]) false s).1
      (getFieldStage m (some m.pkname) (basekey m ["id"]) false s).2.1
      (getFieldStage m (some m.pkname) (basekey m ["id"]) false s).2.2) = _
    have hg : getFieldStage m (some m.pkname) (basekey m ["id"]) false s =
        (basekey m ["id"], false, s) := by
      unfold getFieldStage
      dsimp only
      rw [if_neg (by simp)]
    rw [hg]
    rfl

/-- Witness for the amended C6: the bare primary-key set element comes
back as the permanent index key with an unchanged pipeline state. -/
theorem build_pk_set_reuses_index_key_witness :
    buildElem ⟨"id", false, "ns", fun _ => "fattr"⟩
        (QueryElem.mk "set" "id" [] none none) ⟨3, [], []⟩ =
      Except.ok (basekey ⟨"id", false, "ns", fun _ => "fattr"⟩ ["id"],
        ⟨3, [], []⟩) :=
  build_pk_set_reuses_index_key ⟨"id", false, "ns", fun _ => "fattr"⟩ none
    ⟨3, [], []⟩ (Or.inl rfl)

end Stdnet

